import Mathlib

/-!
Verification of the scheduler-trace visualizer core
(src/src/graph/parser.rs, src/src/graph/mod.rs).

Rust strings are embedded as `List Char`; `&str` pattern arguments of
`replace`, `starts_with` and event-name dispatch appear as Lean `String`
literals converted with `String.toList`.  `u32` values are `Nat` (the
parser rejects numerals ≥ 2^32, as Rust's `parse::<u32>` does), `i32`
values are `Int` with the same bounds, and `f64` timestamps are embedded
as exact decimal rationals (`Rat`): the trace format only ever carries
plain decimal literals, where the two agree on equality of distinct
readings.  Rust panics and `unwrap` failures are `Except.error`.
-/

namespace STT

/-- Rust `str::split(c)` for a one-character pattern: `"a-b" ↦ ["a","b"]`,
`"" ↦ [""]`, `"-b" ↦ ["", "b"]`. -/
def splitOnChar (c : Char) : List Char → List (List Char)
  | [] => [[]]
  | x :: xs =>
    if x = c then [] :: splitOnChar c xs
    else
      match splitOnChar c xs with
      | [] => [[x]]
      | y :: ys => (x :: y) :: ys

/-- Rust `str::split_whitespace`: split on runs of whitespace, no empty
tokens (helper carrying the current token, reversed). -/
def splitWsGo : List Char → List Char → List (List Char)
  | [], acc => if acc = [] then [] else [acc.reverse]
  | c :: cs, acc =>
    if c.isWhitespace then
      if acc = [] then splitWsGo cs []
      else acc.reverse :: splitWsGo cs []
    else splitWsGo cs (c :: acc)

def splitWs (s : List Char) : List (List Char) := splitWsGo s []

/-- Rust `str::replace(pat, "")` (all non-overlapping occurrences removed,
left to right).  Fuel = length of the string keeps the recursion
structural. -/
def replaceAllGo (pat : List Char) : Nat → List Char → List Char
  | 0, s => s
  | _ + 1, [] => []
  | fuel + 1, c :: cs =>
    if pat.isPrefixOf (c :: cs) then
      replaceAllGo pat fuel (List.drop pat.length (c :: cs))
    else c :: replaceAllGo pat fuel cs

def replaceS (pat : String) (s : List Char) : List Char :=
  if pat.toList = [] then s else replaceAllGo pat.toList s.length s

/-- Rust `str::contains(pat)` (substring containment). -/
def containsSub (pat : List Char) : List Char → Bool
  | [] => pat.isEmpty
  | c :: cs => pat.isPrefixOf (c :: cs) || containsSub pat cs

/-- Rust `str::replace(&['[', ']'][..], "")` used on `[cpu]` and `[prio]`
tokens: every bracket character removed. -/
def stripBrackets (s : List Char) : List Char :=
  s.filter fun ch => ch ≠ '[' ∧ ch ≠ ']'

def digitsVal (s : List Char) : Nat :=
  s.foldl (fun a c => a * 10 + (c.toNat - 48)) 0

/-- Digit-string parse: nonempty, all ASCII digits. -/
def parseDigits (s : List Char) : Option Nat :=
  if s ≠ [] ∧ s.all Char.isDigit then some (digitsVal s) else none

/-- Rust `str::parse::<u32>()`: optional leading `+`, digits, range bound. -/
def parseU32 (s : List Char) : Option Nat :=
  let s' := match s with | '+' :: r => r | _ => s
  (parseDigits s').bind fun n => if n < 4294967296 then some n else none

/-- Rust `str::parse::<i32>()`: optional sign, digits, range bound. -/
def parseI32 (s : List Char) : Option Int :=
  match s with
  | '-' :: r => (parseDigits r).bind fun n =>
      if n ≤ 2147483648 then some (-(n : Int)) else none
  | '+' :: r => (parseDigits r).bind fun n =>
      if n < 2147483648 then some ((n : Int)) else none
  | _ => (parseDigits s).bind fun n =>
      if n < 2147483648 then some ((n : Int)) else none

/-- Rust `str::parse::<f64>()` restricted to the plain decimal literals the
trace format carries (optional sign, integer part, optional fraction),
read as an exact rational.  Returns numerator and denominator of the
unsigned value. -/
def parseDecimalCore (s : List Char) : Option (Nat × Nat) :=
  let intPart := s.takeWhile Char.isDigit
  let rest := s.dropWhile Char.isDigit
  match rest with
  | [] => if intPart = [] then none else some (digitsVal intPart, 1)
  | '.' :: frac =>
    if frac.all Char.isDigit ∧ (intPart ≠ [] ∨ frac ≠ []) then
      some (digitsVal intPart * 10 ^ frac.length + digitsVal frac, 10 ^ frac.length)
    else none
  | _ => none

def parseDecimal (s : List Char) : Option Rat :=
  match s with
  | '-' :: r => (parseDecimalCore r).map fun p => mkRat (-(p.1 : Int)) p.2
  | '+' :: r => (parseDecimalCore r).map fun p => mkRat (p.1 : Int) p.2
  | _ => (parseDecimalCore s).map fun p => mkRat (p.1 : Int) p.2

/-- Rust `as u32` on an `i32` value (two's-complement wrap). -/
def asU32 (i : Int) : Nat := (i % 4294967296).toNat

/-- parser.rs `Base`. -/
structure Base where
  command : List Char
  pid : Nat
  priority : Int
deriving DecidableEq, Repr

/-- parser.rs `NumaArgs`. -/
structure NumaArgs where
  pid : Nat
  tgid : Nat
  ngid : Nat
  cpu : Int
  nid : Int
deriving DecidableEq, Repr

/-- parser.rs `Wstate` (per-pid wake state). -/
inductive Wstate where
  | Waking (c1 c2 : Nat)
  | Woken
  | Numa (c1 c2 : Int)
deriving DecidableEq, Repr

/-- parser.rs `Events`. -/
inductive Events where
  | SchedWaking (base : Base) (target_cpu : Nat)
  | SchedWakeIdleNoIpi (cpu : Nat)
  | SchedWakeup (base : Base) (prev_cpu : Option Nat) (cpu : Nat)
  | SchedWakeupNew (base : Base) (parent_cpu : Nat) (cpu : Nat)
  | SchedMigrateTask (base : Base) (orig_cpu : Nat) (dest_cpu : Nat) (state : Wstate)
  | SchedSwitch (old_base : Base) (state : List Char) (new_base : Base)
  | SchedProcessFree (base : Base)
  | SchedProcessExec (filename : List Char) (pid : Nat) (old_pid : Nat)
  | SchedProcessFork (command : List Char) (pid : Nat)
      (child_command : List Char) (child_pid : Nat)
  | SchedProcessWait (base : Base)
  | SchedProcessExit (base : Base)
  | SchedSwapNuma (src : NumaArgs) (dest : NumaArgs)
  | SchedStickNuma (src : NumaArgs) (dest : NumaArgs)
  | SchedMoveNuma (src : NumaArgs) (dest : NumaArgs)
  | NotSupported
deriving DecidableEq, Repr

/-- parser.rs `Action`. -/
structure Action where
  process : List Char
  pid : Nat
  cpu : Nat
  timestamp : Rat
  event : Events
deriving DecidableEq, Repr

/-- The `HashMap<u32, Wstate>` wake-state table, embedded as an association
list where `insert` prepends (lookup returns the newest binding:
last-write-wins, at most one visible entry per pid). -/
def Table : Type := List (Nat × Wstate)

instance : DecidableEq Table := by unfold Table; infer_instance

instance : Repr Table := by unfold Table; infer_instance

def lookupT (t : Table) (pid : Nat) : Option Wstate := List.lookup pid t

def insertT (pid : Nat) (w : Wstate) (t : Table) : Table := (pid, w) :: t

def emptyT : Table := []

instance {ε α : Type} [DecidableEq ε] [DecidableEq α] : DecidableEq (Except ε α) := fun a b =>
  match a, b with
  | .error x, .error y =>
    if h : x = y then .isTrue (by rw [h]) else .isFalse (fun c => h (Except.error.inj c))
  | .error _, .ok _ => .isFalse (fun c => Except.noConfusion c)
  | .ok _, .error _ => .isFalse (fun c => Except.noConfusion c)
  | .ok x, .ok y =>
    if h : x = y then .isTrue (by rw [h]) else .isFalse (fun c => h (Except.ok.inj c))

/-- Token access `part[i]` (Rust `Vec` indexing panics out of bounds). -/
def tok (part : List (List Char)) (i : Nat) : Except String (List Char) :=
  match part[i]? with
  | some t => .ok t
  | none => .error "index out of bounds"

/-- The idiom `String::from(part[i]).replace(pat, "").parse::<u32>().unwrap()`. -/
def pTok32 (part : List (List Char)) (i : Nat) (pat : String) : Except String Nat :=
  match part[i]? with
  | none => .error "index out of bounds"
  | some t =>
    match parseU32 (replaceS pat t) with
    | some v => .ok v
    | none => .error "invalid digit"

/-- The idiom `String::from(part[i]).replace(pat, "").parse::<i32>().unwrap()`. -/
def pTokI32 (part : List (List Char)) (i : Nat) (pat : String) : Except String Int :=
  match part[i]? with
  | none => .error "index out of bounds"
  | some t =>
    match parseI32 (replaceS pat t) with
    | some v => .ok v
    | none => .error "invalid digit"

/-- The idiom `String::from(part[i]).replace(&['[', ']'][..], "").parse::<i32>().unwrap()`
used for `[prio]` tokens. -/
def pTokPrio (part : List (List Char)) (i : Nat) : Except String Int :=
  match part[i]? with
  | none => .error "index out of bounds"
  | some t =>
    match parseI32 (stripBrackets t) with
    | some v => .ok v
    | none => .error "invalid digit"

/-- The trial-split-then-widen rule the source repeats verbatim
(parser.rs lines 439-451 with `-`, 188-201, 217-230 and 277-309 with `:`):
split `part[index]` on the delimiter, try to parse the suffix after the
last occurrence as an integer; on failure move to `part[index + 1]` and
try once more, keeping `part[index]` as the head of the name pieces.
Returns (pid, name pieces, final index). -/
def trialSplit (c : Char) (part : List (List Char)) (index : Nat) :
    Except String (Nat × List (List Char) × Nat) :=
  match part[index]? with
  | none => .error "index out of bounds"
  | some t0 =>
    let pieces := splitOnChar c t0
    match pieces.getLast? with
    | none => .error "pop from empty vec"
    | some last0 =>
      match parseU32 last0 with
      | some pid => .ok (pid, pieces.dropLast, index)
      | none =>
        match part[index + 1]? with
        | none => .error "index out of bounds"
        | some t1 =>
          let pieces1 := splitOnChar c t1
          match pieces1.getLast? with
          | none => .error "pop from empty vec"
          | some last1 =>
            match parseU32 last1 with
            | some pid => .ok (pid, t0 :: pieces1.dropLast, index + 1)
            | none => .error "invalid digit"

/-- parser.rs `get_event`: decode the event body, with its side effects on
the wake-state table (returned alongside the event). -/
def get_event (part : List (List Char)) (_process_pid : Nat) (process_cpu : Nat)
    (process_state : Table) (event_type : String) (index : Nat) :
    Except String (Events × Table) :=
  if event_type = "sched_waking" then
    match part[index]? with
    | none => .error "index out of bounds"
    | some c0 =>
      let command := replaceS "comm=" c0
      match part[index + 1]? with
      | none => .error "index out of bounds"
      | some t1 =>
        let index := if ("pid=".toList.isPrefixOf t1) then index else index + 1
        match pTok32 part (index + 1) "pid=" with
        | .error e => .error e
        | .ok pid =>
          match pTokI32 part (index + 2) "prio=" with
          | .error e => .error e
          | .ok priority =>
            match pTok32 part (index + 3) "target_cpu=" with
            | .error e => .error e
            | .ok target_cpu =>
              .ok (.SchedWaking ⟨command, pid, priority⟩ target_cpu,
                   insertT pid (.Waking process_cpu target_cpu) process_state)
  else if event_type = "sched_wake_idle_without_ipi" then
    match pTok32 part index "cpu=" with
    | .error e => .error e
    | .ok cpu => .ok (.SchedWakeIdleNoIpi cpu, process_state)
  else if event_type = "sched_wakeup" then
    match trialSplit ':' part index with
    | .error e => .error e
    | .ok (pid, pieces, index) =>
      match pieces with
      | [] => .error "remove from empty vec"
      | command :: _ =>
        match pTokPrio part (index + 1) with
        | .error e => .error e
        | .ok priority =>
          match pTok32 part (index + 2) "CPU:" with
          | .error e => .error e
          | .ok cpu =>
            let prev_cpu : Option Nat :=
              match lookupT process_state pid with
              | some (.Waking old_cpu _) => some old_cpu
              | _ => none
            .ok (.SchedWakeup ⟨command, pid, priority⟩ prev_cpu cpu,
                 insertT pid .Woken process_state)
  else if event_type = "sched_wakeup_new" then
    match trialSplit ':' part index with
    | .error e => .error e
    | .ok (pid, pieces, index) =>
      match pieces with
      | [] => .error "remove from empty vec"
      | command :: _ =>
        match pTokPrio part (index + 1) with
        | .error e => .error e
        | .ok priority =>
          match pTok32 part (index + 2) "CPU:" with
          | .error e => .error e
          | .ok cpu =>
            match lookupT process_state pid with
            | none =>
              .ok (.SchedWakeupNew ⟨command, pid, priority⟩ cpu cpu,
                   insertT pid .Woken process_state)
            | some (.Waking _ parent) =>
              .ok (.SchedWakeupNew ⟨command, pid, priority⟩ parent cpu,
                   insertT pid .Woken process_state)
            | some _ => .error "Wakeup without fork"
  else if event_type = "sched_migrate_task" then
    match part[index]? with
    | none => .error "index out of bounds"
    | some c0 =>
      let command := replaceS "comm=" c0
      match part[index + 1]? with
      | none => .error "index out of bounds"
      | some t1 =>
        let index := if ("pid=".toList.isPrefixOf t1) then index else index + 1
        match pTok32 part (index + 1) "pid=" with
        | .error e => .error e
        | .ok pid =>
          match pTokI32 part (index + 2) "prio=" with
          | .error e => .error e
          | .ok priority =>
            match pTok32 part (index + 3) "orig_cpu=" with
            | .error e => .error e
            | .ok orig_cpu =>
              match pTok32 part (index + 4) "dest_cpu=" with
              | .error e => .error e
              | .ok dest_cpu =>
                let temp :=
                  match lookupT process_state pid with
                  | some w => w
                  | none => Wstate.Woken
                let state :=
                  match temp with
                  | .Numa c1 c2 =>
                    if orig_cpu ≠ asU32 c1 ∨ dest_cpu ≠ asU32 c2 then Wstate.Woken
                    else temp
                  | _ => temp
                .ok (.SchedMigrateTask ⟨command, pid, priority⟩ orig_cpu dest_cpu state,
                     process_state)
  else if event_type = "sched_switch" then
    match trialSplit ':' part index with
    | .error e => .error e
    | .ok (old_pid, old_pieces, index2) =>
      let old_command := List.intercalate [' '] old_pieces
      match pTokPrio part (index2 + 1) with
      | .error e => .error e
      | .ok old_priority =>
        match part[index2 + 2]? with
        | none => .error "index out of bounds"
        | some state =>
          match trialSplit ':' part (index + 4) with
          | .error e => .error e
          | .ok (new_pid, new_pieces, index3) =>
            let new_command := List.intercalate [' '] new_pieces
            match pTokPrio part (index3 + 1) with
            | .error e => .error e
            | .ok new_priority =>
              .ok (.SchedSwitch ⟨old_command, old_pid, old_priority⟩ state
                     ⟨new_command, new_pid, new_priority⟩, process_state)
  else if event_type = "sched_process_free" then
    match part[index]? with
    | none => .error "index out of bounds"
    | some c0 =>
      let command := replaceS "comm=" c0
      match part[index + 1]? with
      | none => .error "index out of bounds"
      | some t1 =>
        let index := if ("pid=".toList.isPrefixOf t1) then index else index + 1
        match pTok32 part (index + 1) "pid=" with
        | .error e => .error e
        | .ok pid =>
          match pTokI32 part (index + 2) "prio=" with
          | .error e => .error e
          | .ok priority =>
            .ok (.SchedProcessFree ⟨command, pid, priority⟩, process_state)
  else if event_type = "sched_process_exec" then
    match part[index]? with
    | none => .error "index out of bounds"
    | some f0 =>
      let filename := replaceS "filename=" f0
      match pTok32 part (index + 1) "pid=" with
      | .error e => .error e
      | .ok pid =>
        match pTok32 part (index + 2) "old_pid=" with
        | .error e => .error e
        | .ok old_pid => .ok (.SchedProcessExec filename pid old_pid, process_state)
  else if event_type = "sched_process_fork" then
    match part[index]? with
    | none => .error "index out of bounds"
    | some c0 =>
      let command := replaceS "comm=" c0
      match part[index + 1]? with
      | none => .error "index out of bounds"
      | some t1 =>
        let index := if ("pid=".toList.isPrefixOf t1) then index else index + 1
        match pTok32 part (index + 1) "pid=" with
        | .error e => .error e
        | .ok pid =>
          match part[index + 2]? with
          | none => .error "index out of bounds"
          | some c2 =>
            let child_command := replaceS "child_comm=" c2
            match part[index + 3]? with
            | none => .error "index out of bounds"
            | some t3 =>
              let index := if ("child_pid=".toList.isPrefixOf t3) then index else index + 1
              match pTok32 part (index + 3) "child_pid=" with
              | .error e => .error e
              | .ok child_pid =>
                .ok (.SchedProcessFork command pid child_command child_pid,
                     insertT child_pid (.Waking process_cpu process_cpu) process_state)
  else if event_type = "sched_process_wait" then
    match part[index]? with
    | none => .error "index out of bounds"
    | some c0 =>
      let command := replaceS "comm=" c0
      match part[index + 1]? with
      | none => .error "index out of bounds"
      | some t1 =>
        let index := if ("pid=".toList.isPrefixOf t1) then index else index + 1
        match pTok32 part (index + 1) "pid=" with
        | .error e => .error e
        | .ok pid =>
          match pTokI32 part (index + 2) "prio=" with
          | .error e => .error e
          | .ok priority =>
            .ok (.SchedProcessWait ⟨command, pid, priority⟩, process_state)
  else if event_type = "sched_process_exit" then
    match part[index]? with
    | none => .error "index out of bounds"
    | some c0 =>
      let command := replaceS "comm=" c0
      match part[index + 1]? with
      | none => .error "index out of bounds"
      | some t1 =>
        let index := if ("pid=".toList.isPrefixOf t1) then index else index + 1
        match pTok32 part (index + 1) "pid=" with
        | .error e => .error e
        | .ok pid =>
          match pTokI32 part (index + 2) "prio=" with
          | .error e => .error e
          | .ok priority =>
            .ok (.SchedProcessExit ⟨command, pid, priority⟩, process_state)
  else if event_type = "sched_swap_numa" then
    match pTok32 part index "src_pid=" with
    | .error e => .error e
    | .ok pid =>
      match pTok32 part (index + 1) "src_tgid=" with
      | .error e => .error e
      | .ok tgid =>
        match pTok32 part (index + 2) "src_ngid=" with
        | .error e => .error e
        | .ok ngid =>
          match pTokI32 part (index + 3) "src_cpu=" with
          | .error e => .error e
          | .ok cpu =>
            match pTokI32 part (index + 4) "src_nid=" with
            | .error e => .error e
            | .ok nid =>
              let src : NumaArgs := ⟨pid, tgid, ngid, cpu, nid⟩
              match pTok32 part (index + 5) "dst_pid=" with
              | .error e => .error e
              | .ok pid2 =>
                match pTok32 part (index + 6) "dst_tgid=" with
                | .error e => .error e
                | .ok tgid2 =>
                  match pTok32 part (index + 7) "dst_ngid=" with
                  | .error e => .error e
                  | .ok ngid2 =>
                    match pTokI32 part (index + 8) "dst_cpu=" with
                    | .error e => .error e
                    | .ok cpu2 =>
                      match pTokI32 part (index + 9) "dst_nid=" with
                      | .error e => .error e
                      | .ok nid2 =>
                        let dest : NumaArgs := ⟨pid2, tgid2, ngid2, cpu2, nid2⟩
                        .ok (.SchedSwapNuma src dest,
                             insertT dest.pid (.Numa dest.cpu src.cpu)
                               (insertT src.pid (.Numa src.cpu dest.cpu) process_state))
  else if event_type = "sched_stick_numa" then
    match pTok32 part index "src_pid=" with
    | .error e => .error e
    | .ok pid =>
      match pTok32 part (index + 1) "src_tgid=" with
      | .error e => .error e
      | .ok tgid =>
        match pTok32 part (index + 2) "src_ngid=" with
        | .error e => .error e
        | .ok ngid =>
          match pTokI32 part (index + 3) "src_cpu=" with
          | .error e => .error e
          | .ok cpu =>
            match pTokI32 part (index + 4) "src_nid=" with
            | .error e => .error e
            | .ok nid =>
              let src : NumaArgs := ⟨pid, tgid, ngid, cpu, nid⟩
              match pTok32 part (index + 5) "dst_pid=" with
              | .error e => .error e
              | .ok pid2 =>
                match pTok32 part (index + 6) "dst_tgid=" with
                | .error e => .error e
                | .ok tgid2 =>
                  match pTok32 part (index + 7) "dst_ngid=" with
                  | .error e => .error e
                  | .ok ngid2 =>
                    match pTokI32 part (index + 8) "dst_cpu=" with
                    | .error e => .error e
                    | .ok cpu2 =>
                      match pTokI32 part (index + 9) "dst_nid=" with
                      | .error e => .error e
                      | .ok nid2 =>
                        let dest : NumaArgs := ⟨pid2, tgid2, ngid2, cpu2, nid2⟩
                        .ok (.SchedStickNuma src dest, process_state)
  else if event_type = "sched_move_numa" then
    match pTok32 part index "pid=" with
    | .error e => .error e
    | .ok pid =>
      match pTok32 part (index + 1) "tgid=" with
      | .error e => .error e
      | .ok tgid =>
        match pTok32 part (index + 2) "ngid=" with
        | .error e => .error e
        | .ok ngid =>
          match pTokI32 part (index + 3) "src_cpu=" with
          | .error e => .error e
          | .ok cpu =>
            match pTokI32 part (index + 4) "src_nid=" with
            | .error e => .error e
            | .ok nid =>
              let src : NumaArgs := ⟨pid, tgid, ngid, cpu, nid⟩
              match pTokI32 part (index + 5) "dst_cpu=" with
              | .error e => .error e
              | .ok cpu2 =>
                match pTokI32 part (index + 6) "dst_nid=" with
                | .error e => .error e
                | .ok nid2 =>
                  let dest : NumaArgs := ⟨pid, tgid, ngid, cpu2, nid2⟩
                  .ok (.SchedMoveNuma src dest,
                       insertT src.pid (.Numa src.cpu dest.cpu) process_state)
  else
    .ok (.NotSupported, process_state)

/-- parser.rs `get_action`: decode the line header (`<command>-<pid>`,
`[cpu]`, `<ts>:`, `<event>:`) by the trial-split rule, then the body. -/
def get_action (part : List (List Char)) (process_state : Table) :
    Except String (Action × Table) :=
  match trialSplit '-' part 0 with
  | .error e => .error e
  | .ok (pid, pieces, index) =>
    let process := List.intercalate ['-'] pieces
    match part[index + 1]? with
    | none => .error "index out of bounds"
    | some c1 =>
      match parseU32 (stripBrackets c1) with
      | none => .error "invalid digit"
      | some cpu =>
        match part[index + 2]? with
        | none => .error "index out of bounds"
        | some t2 =>
          match parseDecimal t2.dropLast with
          | none => .error "invalid float"
          | some timestamp =>
            match part[index + 3]? with
            | none => .error "index out of bounds"
            | some t3 =>
              let event_type := String.mk t3.dropLast
              match get_event part pid cpu process_state event_type (index + 4) with
              | .error e => .error e
              | .ok (event, table) =>
                .ok (⟨process, pid, cpu, timestamp, event⟩, table)

/-- parser.rs `TraceParser` (the revision present in src/): cpu count from
the header, the remaining input lines, and the owned wake-state table. -/
structure TraceParserSt where
  cpu_count : Nat
  lines : List (List Char)
  process_state : Table
deriving DecidableEq, Repr

/-- parser.rs `TraceParser::new`: read the first line, require a first
token containing `cpus=`, strip every `cpus=` occurrence and parse the
remainder as the cpu count; panic otherwise. -/
def TraceParserNew (lines : List (List Char)) : Except String TraceParserSt :=
  match lines with
  | [] => .error "Unable to read trace"
  | line :: rest =>
    match splitWs line with
    | [] => .error "Invalid format: Expected 'cpus=' in the first line"
    | p0 :: _ =>
      if containsSub ("cpus=".toList) p0 then
        match parseU32 (replaceS "cpus=" p0) with
        | some n => .ok ⟨n, rest, emptyT⟩
        | none => .error "invalid digit"
      else .error "Invalid format: Expected 'cpus=' in the first line"

/-- parser.rs `TraceParser::next_action`: skip lines of at most two
whitespace tokens, decode the first longer one, and return the action,
the post-decode table snapshot, and the remaining lines. -/
def next_action (table : Table) :
    List (List Char) → Except String (Option (Action × Table × List (List Char)))
  | [] => .ok none
  | l :: rest =>
    let part := splitWs l
    if part.length > 2 then
      match get_action part table with
      | .error e => .error e
      | .ok (a, t) => .ok (some (a, t, rest))
    else next_action table rest

/-- Run a whole trace: header check, then every decoded action in order
(a fatal decode aborts with the error; a fatal header yields no action). -/
def runTraceGo (table : Table) : List (List Char) → Except String (List Action)
  | [] => .ok []
  | l :: rest =>
    let part := splitWs l
    if part.length > 2 then
      match get_action part table with
      | .error e => .error e
      | .ok (a, t) =>
        match runTraceGo t rest with
        | .error e => .error e
        | .ok as => .ok (a :: as)
    else runTraceGo table rest

def runTrace (lines : List (List Char)) : Except String (List Action) :=
  match TraceParserNew lines with
  | .error e => .error e
  | .ok st => runTraceGo st.process_state st.lines

/-- read_config.rs `Machine` (ranges are the inclusive `[low, high]`
two-element vectors of `numa_node_ranges`, embedded as pairs). -/
structure Machine where
  cpus : Nat
  sockets : Nat
  cores_per_socket : Nat
  threads_per_core : Nat
  numa_nodes : Nat
  numa_node_ranges : List (List (Nat × Nat))
deriving DecidableEq, Repr

/-- Search one socket's range list for a cpu, in declaration order. -/
def findRangeGo (cpu : Nat) : List (Nat × Nat) → Nat → Option Nat
  | [], _ => none
  | r :: rs, i => if r.1 ≤ cpu ∧ cpu ≤ r.2 then some i else findRangeGo cpu rs (i + 1)

def findSocketGo (cpu : Nat) : List (List (Nat × Nat)) → Nat → Option (Nat × Nat)
  | [], _ => none
  | socket_ranges :: ss, s =>
    match findRangeGo cpu socket_ranges 0 with
    | some i => some (s, i)
    | none => findSocketGo cpu ss (s + 1)

/-- mod.rs `get_socket_order`: first matching range in declaration order;
`none` embeds the panic "Bad numa node ranges in config". -/
def get_socket_order (cpu : Nat) (machine : Machine) : Option (Nat × Nat) :=
  findSocketGo cpu machine.numa_node_ranges 0

/-- The y-axis position formula of mod.rs `get_y_axis` (socket-order branch). -/
def yPos (machine : Machine) (cpu socket range : Nat) : Nat :=
  socket * machine.cores_per_socket * machine.threads_per_core +
    cpu % machine.cores_per_socket + range * machine.cores_per_socket

def buildYAxis (machine : Machine) : List Nat → Option (List (Nat × Nat))
  | [] => some []
  | c :: cs =>
    match get_socket_order c machine with
    | none => none
    | some (socket, range) =>
      (buildYAxis machine cs).map fun rest => (c, yPos machine c socket range) :: rest

/-- mod.rs `get_y_axis`: identity table over `0..cpu_count` when
`socket_order` is off, else the `yPos` layout over `0..machine.cpus`. -/
def get_y_axis (machine : Machine) (socket_order : Bool) (cpu_count : Nat) :
    Option (List (Nat × Nat)) :=
  if !socket_order then some ((List.range cpu_count).map fun cpu => (cpu, cpu))
  else buildYAxis machine (List.range machine.cpus)

/-- mod.rs `classify_migrate_event`: returns the `legend_group` label drawn
and counted for a migrate event, `ok none` when nothing is drawn (a
non-migrate event, or a pid with no wake-state entry), and `error` for the
`get_socket_order` panic.  Drawing and frequency bookkeeping, pure
rendering, carry no further information than the label. -/
def classify_migrate_event (action : Action) (states : Table) (machine : Machine) :
    Except String (Option String) :=
  match action.event with
  | .SchedMigrateTask base orig_cpu dest_cpu _state =>
    match get_socket_order orig_cpu machine with
    | none => .error "Bad numa node ranges in config"
    | some (src, _) =>
      match get_socket_order dest_cpu machine with
      | none => .error "Bad numa node ranges in config"
      | some (dest, _) =>
        match lookupT states base.pid with
        | none => .ok none
        | some w =>
          .ok (some (match w with
            | .Waking _ _ =>
              if src = dest then "on-socket<br>unblock placement"
              else "off-socket<br>unblock placement"
            | .Woken =>
              if src = dest then "on-socket<br>load balancing"
              else "off-socket<br>load balancing"
            | .Numa _ _ => "numa balancing"))
  | _ => .ok none

/-- Stream a trace and classify its first migrate-task action against the
table snapshot returned with it, as mod.rs `draw_traces` does per event. -/
def firstMigrateGo (machine : Machine) (table : Table) :
    List (List Char) → Except String (Option String)
  | [] => .error "no migrate event in trace"
  | l :: rest =>
    let part := splitWs l
    if part.length > 2 then
      match get_action part table with
      | .error e => .error e
      | .ok (a, t) =>
        match a.event with
        | .SchedMigrateTask _ _ _ _ => classify_migrate_event a t machine
        | _ => firstMigrateGo machine t rest
    else firstMigrateGo machine table rest

def classifyFirstMigrate (lines : List (List Char)) (machine : Machine) :
    Except String (Option String) :=
  match TraceParserNew lines with
  | .error e => .error e
  | .ok st => firstMigrateGo machine st.process_state st.lines

/-! Concrete topologies and trace lines used in the theorems below. -/

/-- The default topology shipped in read_config.rs `default_config()`. -/
def defaultMachine : Machine :=
  ⟨64, 2, 16, 2, 2, [[(0, 15), (32, 47)], [(16, 31), (48, 63)]]⟩

/-- A four-cpu, one-socket topology for the `cpus=4` scenarios. -/
def machine4 : Machine := ⟨4, 1, 4, 1, 1, [[(0, 3)]]⟩

/-- A sixteen-cpu, one-socket topology. -/
def machine16 : Machine := ⟨16, 1, 16, 1, 1, [[(0, 15)]]⟩

/-- A topology whose ranges are narrower than `cores_per_socket`,
admissible for §4.1 (disjoint inclusive per-socket ranges covering every
cpu) but on which the socket-order layout is not a bijection. -/
def badMachine : Machine := ⟨4, 1, 4, 1, 1, [[(0, 1), (2, 3)]]⟩

def headerLine16 : List Char := "cpus=16".toList

def headerLine4 : List Char := "cpus=4".toList

def swapNumaLine : List Char :=
  String.toList ("swapper-0 [5] 1.000000: sched_swap_numa: src_pid=7 src_tgid=7 " ++
    "src_ngid=0 src_cpu=5 src_nid=0 dst_pid=8 dst_tgid=8 dst_ngid=0 dst_cpu=9 dst_nid=0")

/-- Migration of pid 7 whose (orig, dest) = (5, 3) does not match its
pending NUMA intent (5, 9). -/
def migrateStaleLine : List Char :=
  "swapper-0 [5] 2.000000: sched_migrate_task: comm=app pid=7 prio=120 orig_cpu=5 dest_cpu=3".toList

def c1Lines : List (List Char) := [headerLine16, swapNumaLine, migrateStaleLine]

def wakingLine : List Char :=
  "swapper-0 [1] 1.000000: sched_waking: comm=app pid=10 prio=120 target_cpu=2".toList

def wakeupLine : List Char :=
  "swapper-0 [2] 2.000000: sched_wakeup: app:10 [120] CPU:2".toList

def migrate23Line : List Char :=
  "swapper-0 [2] 3.000000: sched_migrate_task: comm=app pid=10 prio=120 orig_cpu=2 dest_cpu=3".toList

def c5LinesA : List (List Char) := [headerLine4, wakingLine, wakeupLine, migrate23Line]

def c5LinesB : List (List Char) := [headerLine4, wakingLine, migrate23Line, wakeupLine]

/-- A migration of a pid that has no wake-state entry. -/
def migrateNoEntryLine : List Char :=
  "swapper-0 [2] 3.000000: sched_migrate_task: comm=app pid=10 prio=120 orig_cpu=1 dest_cpu=2".toList

def c2Lines : List (List Char) := [headerLine4, migrateNoEntryLine]

def wakeupNewLine : List Char :=
  "swapper-0 [1] 1.000000: sched_wakeup_new: app:11 [120] CPU:2".toList

/-- The state field the migrate-task decoder stores into the event. -/
def migrateStateOf : Events → Option Wstate
  | .SchedMigrateTask _ _ _ s => some s
  | _ => none

/-- Modelled from the spec: the Trace Stream Driver state of §4.4 — the
`TraceParser` revision that mod.rs `draw_traces`/`find_sleep` call, whose
`next_action` yields `Option<(Action, WakeState-snapshot, first_timestamp)>`
and which carries `first_timestamp`/`last_timestamp` fields.  That
revision is absent from src/ (src/src/graph/parser.rs holds an older
two-tuple revision without the timestamp fields); only its caller mod.rs
is present.  Decoding of a line is the src/ `get_action`. -/
structure TraceCursor where
  cpu_count : Nat
  lines : List (List Char)
  process_state : Table
  first_timestamp : Option Rat
  last_timestamp : Option Rat
deriving DecidableEq, Repr

/-- Modelled from the spec: one `next()` step of the Trace Stream Driver —
read lines lazily, skip those of at most two tokens, decode one action,
record the first timestamp ever seen and the latest one, and yield the
action, the table snapshot and the first timestamp. -/
def cursorNextGo (cpu_count : Nat) (table : Table) (ft lt : Option Rat) :
    List (List Char) → Except String (Option ((Action × Table × Option Rat) × TraceCursor))
  | [] => .ok none
  | l :: rest =>
    let part := splitWs l
    if part.length > 2 then
      match get_action part table with
      | .error e => .error e
      | .ok (a, t) =>
        let ft2 := match ft with | some x => some x | none => some a.timestamp
        .ok (some ((a, t, ft2), ⟨cpu_count, rest, t, ft2, some a.timestamp⟩))
    else cursorNextGo cpu_count table ft lt rest

def cursorNext (st : TraceCursor) :
    Except String (Option ((Action × Table × Option Rat) × TraceCursor)) :=
  cursorNextGo st.cpu_count st.process_state st.first_timestamp st.last_timestamp st.lines

def c4Action : Action :=
  ⟨"my-proc-name".toList, 4321, 2, mkRat 21 2, .NotSupported⟩

def c4ActionB : Action := ⟨"a-b".toList, 9, 2, 1, .NotSupported⟩

def stickNumaLine : List Char :=
  String.toList ("swapper-0 [5] 1.000000: sched_stick_numa: src_pid=7 src_tgid=7 " ++
    "src_ngid=0 src_cpu=5 src_nid=0 dst_pid=8 dst_tgid=8 dst_ngid=0 dst_cpu=9 dst_nid=0")

def migrateActNoEntry : Action :=
  ⟨"swapper".toList, 0, 2, 3, .SchedMigrateTask ⟨"app".toList, 10, 120⟩ 1 2 .Woken⟩

def defaultYVals : List Nat := ((get_y_axis defaultMachine true 64).getD []).map Prod.snd

def defaultYKeys : List Nat := ((get_y_axis defaultMachine true 64).getD []).map Prod.fst

def cursorSt : TraceCursor :=
  ⟨4, ["swapper-0 [1] 1.000000: sched_foo: x".toList], emptyT, none, none⟩

def cursorOut : Action × Table × Option Rat :=
  (⟨"swapper".toList, 0, 1, 1, .NotSupported⟩, emptyT, some 1)

def cursorSt2 : TraceCursor := ⟨4, [], emptyT, some 1, some 1⟩

/-! Claim theorems. -/

/-! String lemmas for the trial-split tokenization (C4). -/

theorem splitOnChar_ne_nil (c : Char) (l : List Char) : splitOnChar c l ≠ [] := by
  cases l with
  | nil => simp [splitOnChar]
  | cons x xs =>
    simp only [splitOnChar]
    split
    · simp
    · split <;> simp

theorem splitOnChar_not_mem (c : Char) (l : List Char) (h : c ∉ l) :
    splitOnChar c l = [l] := by
  induction l with
  | nil => rfl
  | cons x xs ih =>
    have hx : x ≠ c := fun e => h (by simp [e])
    have hxs : c ∉ xs := fun m => h (List.mem_cons_of_mem _ m)
    simp only [splitOnChar, if_neg hx, ih hxs]

theorem splitOnChar_length_two (c : Char) (l : List Char) (h : c ∈ l) :
    2 ≤ (splitOnChar c l).length := by
  induction l with
  | nil => cases h
  | cons x xs ih =>
    by_cases hx : x = c
    · subst hx
      simp only [splitOnChar, if_true, List.length_cons]
      have h1 : 0 < (splitOnChar x xs).length :=
        List.length_pos.mpr (splitOnChar_ne_nil x xs)
      omega
    · have hxs : c ∈ xs := by
        rcases List.mem_cons.mp h with h1 | h1
        · exact absurd h1.symm hx
        · exact h1
      simp only [splitOnChar, if_neg hx]
      cases hs : splitOnChar c xs with
      | nil => exact absurd hs (splitOnChar_ne_nil c xs)
      | cons y ys =>
        have h2 := ih hxs
        rw [hs] at h2
        simp only [List.length_cons] at h2 ⊢
        omega

theorem splitOnChar_last (c : Char) (xs ys : List Char) (h : c ∉ ys) :
    (splitOnChar c (xs ++ c :: ys)).getLast? = some ys := by
  induction xs with
  | nil =>
    simp only [List.nil_append, splitOnChar, if_pos rfl, splitOnChar_not_mem c ys h]
    rfl
  | cons x xs ih =>
    simp only [List.cons_append, splitOnChar]
    by_cases hx : x = c
    · rw [if_pos hx]
      cases hs : splitOnChar c (xs ++ c :: ys) with
      | nil => exact absurd hs (splitOnChar_ne_nil c _)
      | cons y ys2 =>
        rw [hs] at ih
        rw [List.getLast?_cons_cons]
        exact ih
    · rw [if_neg hx]
      cases hs : splitOnChar c (xs ++ c :: ys) with
      | nil => exact absurd hs (splitOnChar_ne_nil c _)
      | cons y ys2 =>
        have h2 : 2 ≤ (y :: ys2).length := by
          rw [← hs]
          exact splitOnChar_length_two c _ (by simp)
        cases ys2 with
        | nil => simp at h2
        | cons z zs =>
          rw [hs] at ih
          rw [List.getLast?_cons_cons] at ih ⊢
          exact ih


theorem trialSplit_first (c : Char) (cmd pidStr : List Char) (rest : List (List Char))
    (pid : Nat) (hc : c ∉ pidStr) (hp : parseU32 pidStr = some pid) :
    trialSplit c ((cmd ++ c :: pidStr) :: rest) 0 =
      .ok (pid, (splitOnChar c (cmd ++ c :: pidStr)).dropLast, 0) := by
  unfold trialSplit
  simp only [List.getElem?_cons_zero, splitOnChar_last c cmd pidStr hc, hp]

theorem trialSplit_second (c : Char) (c0 cmd pidStr : List Char) (rest : List (List Char))
    (pid : Nat)
    (h0 : ∀ l, (splitOnChar c c0).getLast? = some l → parseU32 l = none)
    (hc : c ∉ pidStr) (hp : parseU32 pidStr = some pid) :
    trialSplit c (c0 :: (cmd ++ c :: pidStr) :: rest) 0 =
      .ok (pid, c0 :: (splitOnChar c (cmd ++ c :: pidStr)).dropLast, 1) := by
  unfold trialSplit
  cases hl : (splitOnChar c c0).getLast? with
  | none =>
    exact absurd (List.getLast?_eq_none_iff.mp hl) (splitOnChar_ne_nil c c0)
  | some l0 =>
    simp only [List.getElem?_cons_zero, List.getElem?_cons_succ, hl, h0 l0 hl,
      splitOnChar_last c cmd pidStr hc, hp]

/-- When the last delimiter-suffix of neither of the first two tokens
parses as an integer, the trial-split rule aborts: there is no second
retry. -/
theorem trialSplit_both_fail (c : Char) (c0 c1 : List Char) (rest : List (List Char))
    (h0 : ∀ l, (splitOnChar c c0).getLast? = some l → parseU32 l = none)
    (h1 : ∀ l, (splitOnChar c c1).getLast? = some l → parseU32 l = none) :
    trialSplit c (c0 :: c1 :: rest) 0 = .error "invalid digit" := by
  unfold trialSplit
  cases hl : (splitOnChar c c0).getLast? with
  | none =>
    exact absurd (List.getLast?_eq_none_iff.mp hl) (splitOnChar_ne_nil c c0)
  | some l0 =>
    cases hl1 : (splitOnChar c c1).getLast? with
    | none =>
      exact absurd (List.getLast?_eq_none_iff.mp hl1) (splitOnChar_ne_nil c c1)
    | some l1 =>
      simp only [List.getElem?_cons_zero, List.getElem?_cons_succ, hl, h0 l0 hl,
        hl1, h1 l1 hl1]

theorem stripBrackets_wrap (s : List Char) (h1 : '[' ∉ s) (h2 : ']' ∉ s) :
    stripBrackets ('[' :: s ++ [']']) = s := by
  simp [stripBrackets, List.filter_append]
  intro a ha
  exact ⟨fun e => h1 (e ▸ ha), fun e => h2 (e ▸ ha)⟩

theorem get_action_pid_cpu (part : List (List Char)) (table : Table) (pid : Nat)
    (pieces : List (List Char)) (index : Nat) (cpuStr : List Char) (cpu : Nat)
    (a : Action) (t2 : Table)
    (htr : trialSplit '-' part 0 = .ok (pid, pieces, index))
    (hbr : part[index + 1]? = some ('[' :: cpuStr ++ [']']))
    (h1 : '[' ∉ cpuStr) (h2 : ']' ∉ cpuStr)
    (hcpu : parseU32 cpuStr = some cpu)
    (h : get_action part table = .ok (a, t2)) :
    a.pid = pid ∧ a.cpu = cpu := by
  unfold get_action at h
  rw [htr] at h
  simp only [hbr, stripBrackets_wrap cpuStr h1 h2, hcpu] at h
  cases hts : part[index + 2]? with
  | none => simp [hts] at h
  | some t3 =>
    simp only [hts] at h
    cases hdec : parseDecimal t3.dropLast with
    | none => simp [hdec] at h
    | some ts =>
      simp only [hdec] at h
      cases hev : part[index + 3]? with
      | none => simp [hev] at h
      | some t4 =>
        simp only [hev] at h
        cases hge : get_event part pid cpu table (String.mk t4.dropLast) (index + 4) with
        | error e => simp [hge] at h
        | ok p =>
          obtain ⟨ev, tb⟩ := p
          simp only [hge, Except.ok.injEq, Prod.mk.injEq] at h
          obtain ⟨ha2, -⟩ := h
          exact ⟨by rw [← ha2], by rw [← ha2]⟩

/-- C4 counterexample.  A command spanning three whitespace tokens
("a b c" with pid 9): the trial-split rule is attempted on token "a",
fails, widens ONCE to token "b", fails again, and decoding aborts
instead of continuing to token "c-9" — the rule does not repeat "as many
times as needed", so the pid is never recovered. -/
theorem three_token_command_fatal_cex :
    get_action (splitWs (String.toList "a b c-9 [2] 1.000000: sched_x: y")) emptyT =
      .error "invalid digit" := by
  decide

/-- C4 amended.  The trial-split widens exactly once, not as many times
as needed.  pid and cpu are recovered exactly for every command that is
a single whitespace token (with any number of hyphens) and for every
command of two whitespace tokens whose first token's last hyphen-suffix
fails to parse; and whenever the last hyphen-suffix of neither of the
first two tokens parses as an integer, decoding aborts fatally instead
of trying further tokens (instance: `three_token_command_fatal_cex`). -/
theorem header_pid_cpu_recovery :
    (∀ (cmd pidStr : List Char) (pid : Nat) (cpuStr : List Char) (cpu : Nat)
      (tsTok evTok : List Char) (rest : List (List Char)) (table : Table)
      (a : Action) (t2 : Table),
      '-' ∉ pidStr → parseU32 pidStr = some pid →
      '[' ∉ cpuStr → ']' ∉ cpuStr → parseU32 cpuStr = some cpu →
      get_action ((cmd ++ '-' :: pidStr) :: ('[' :: cpuStr ++ [']']) ::
        tsTok :: evTok :: rest) table = .ok (a, t2) →
      a.pid = pid ∧ a.cpu = cpu) ∧
    (∀ (c0 cmd pidStr : List Char) (pid : Nat) (cpuStr : List Char) (cpu : Nat)
      (tsTok evTok : List Char) (rest : List (List Char)) (table : Table)
      (a : Action) (t2 : Table),
      (∀ l, (splitOnChar '-' c0).getLast? = some l → parseU32 l = none) →
      '-' ∉ pidStr → parseU32 pidStr = some pid →
      '[' ∉ cpuStr → ']' ∉ cpuStr → parseU32 cpuStr = some cpu →
      get_action (c0 :: (cmd ++ '-' :: pidStr) :: ('[' :: cpuStr ++ [']']) ::
        tsTok :: evTok :: rest) table = .ok (a, t2) →
      a.pid = pid ∧ a.cpu = cpu) ∧
    (∀ (c0 c1 : List Char) (rest : List (List Char)) (table : Table),
      (∀ l, (splitOnChar '-' c0).getLast? = some l → parseU32 l = none) →
      (∀ l, (splitOnChar '-' c1).getLast? = some l → parseU32 l = none) →
      get_action (c0 :: c1 :: rest) table = .error "invalid digit") := by
  refine ⟨?_, ?_, ?_⟩
  · intro cmd pidStr pid cpuStr cpu tsTok evTok rest table a t2 hd hp hb1 hb2 hcpu h
    exact get_action_pid_cpu ((cmd ++ '-' :: pidStr) :: ('[' :: cpuStr ++ [']']) ::
        tsTok :: evTok :: rest) table pid _ 0 cpuStr cpu a t2
      (trialSplit_first '-' cmd pidStr _ pid hd hp) rfl hb1 hb2 hcpu h
  · intro c0 cmd pidStr pid cpuStr cpu tsTok evTok rest table a t2 h0 hd hp hb1 hb2 hcpu h
    exact get_action_pid_cpu (c0 :: (cmd ++ '-' :: pidStr) :: ('[' :: cpuStr ++ [']']) ::
        tsTok :: evTok :: rest) table pid _ 1 cpuStr cpu a t2
      (trialSplit_second '-' c0 cmd pidStr _ pid h0 hd hp) rfl hb1 hb2 hcpu h
  · intro c0 c1 rest table h0 h1
    unfold get_action
    rw [trialSplit_both_fail '-' c0 c1 rest h0 h1]

theorem header_pid_cpu_recovery_witness :
    (c4Action.pid = 4321 ∧ c4Action.cpu = 2) ∧ (c4ActionB.pid = 9 ∧ c4ActionB.cpu = 2) ∧
    get_action ["a".toList, "b".toList, "x".toList] emptyT = .error "invalid digit" :=
  ⟨header_pid_cpu_recovery.1 "my-proc-name".toList "4321".toList 4321 "2".toList 2
      "10.500000:".toList "sched_foo:".toList ["comm=other".toList] emptyT c4Action emptyT
      (by decide) (by decide) (by decide) (by decide) (by decide) (by decide),
   header_pid_cpu_recovery.2.1 "a".toList "b".toList "9".toList 9 "2".toList 2
      "1.000000:".toList "sched_foo:".toList ["z".toList] emptyT c4ActionB emptyT
      (by intro l hl; injection hl with hll; subst hll; rfl)
      (by decide) (by decide) (by decide) (by decide) (by decide) (by decide),
   header_pid_cpu_recovery.2.2 "a".toList "b".toList ["x".toList] emptyT
      (by intro l hl; injection hl with hll; subst hll; rfl)
      (by intro l hl; injection hl with hll; subst hll; rfl)⟩



/-- C1.  After `swap_numa(src=(pid=7, cpu=5), dest=(pid=8, cpu=9))`, the
migration `migrate_task(pid=7, orig=5, dest=3)` does NOT match the pending
(5, 9) intent, yet the surfaced classification is still "numa balancing":
`classify_migrate_event` matches the raw table entry and never compares
the cpu pair.  The decoder's migrate arm computes exactly the demotion the
claim states (the second conjunct: the event's recorded state is `Woken`,
the LoadBalancing family), but that field is read by no caller.  The claim
(and spec §4.3 step 4) describe the computed-but-dead demotion; the
surfaced label contradicts them. -/
theorem numa_mismatch_still_numa_balancing :
    classifyFirstMigrate c1Lines machine16 = .ok (some "numa balancing") ∧
    (runTrace c1Lines).map (fun as => as.map fun a => migrateStateOf a.event) =
      .ok [none, some .Woken] :=
  ⟨rfl, rfl⟩

/-- C5.  Ordering sensitivity: waking(pid 10 → cpu 2) then wakeup(pid 10)
then migrate(10, 2 → 3) classifies as (on-socket) load balancing, because
the wakeup overwrote Waking with Woken first; moving the migrate before
the wakeup yields (on-socket) unblock placement instead. -/
theorem ordering_sensitivity_scenario :
    classifyFirstMigrate c5LinesA machine4 = .ok (some "on-socket<br>load balancing") ∧
    classifyFirstMigrate c5LinesB machine4 = .ok (some "on-socket<br>unblock placement") :=
  ⟨rfl, rfl⟩

/-- C2 counterexample.  A migrate-task event for a pid with no wake-state
entry surfaces NO label at all (`ok none`: nothing drawn, no frequency
counter touched — the five legend labels of `classify_migrate_event`
include no "Unclassified" value), refuting the claim that an explicit
Unclassified label is produced as a value for the caller. -/
theorem no_entry_silently_skipped_cex :
    classifyFirstMigrate c2Lines machine4 = .ok none :=
  rfl

/-- C3 counterexample.  Decoding `wakeup_new` for pid 11 with an empty
wake-state table (no entry at all for 11) SUCCEEDS — `parent_cpu`
defaults to the event's cpu and 11 is set to Woken — refuting the claim
that a missing entry is fatal. -/
theorem wakeup_new_no_entry_succeeds_cex :
    get_action (splitWs wakeupNewLine) emptyT =
      .ok (⟨"swapper".toList, 0, 1, 1,
            .SchedWakeupNew ⟨"app".toList, 11, 120⟩ 2 2⟩,
           [(11, .Woken)]) := by
  decide

/-- C7 counterexample.  The header check is `contains("cpus=")` plus
strip-and-parse, not a shape check: the malformed first line `7cpus=4` is
accepted with cpu_count 74, refuting "every malformed first line is
fatal". -/
theorem malformed_header_accepted_cex :
    TraceParserNew ["7cpus=4".toList] = .ok ⟨74, [], emptyT⟩ :=
  rfl

/-- C6 counterexample.  On `badMachine` (a legal §4.1 topology: disjoint
inclusive ranges covering cpus 0-3) the socket-order layout maps cpus
0,1,2,3 to 0,1,6,7: position 6 falls outside `0..cpu_count`, so the map is
not a bijection over `0..cpu_count`. -/
theorem layout_not_bijective_cex :
    get_y_axis badMachine true 4 = some [(0, 0), (1, 1), (2, 6), (3, 7)] ∧
    ([(0, 0), (1, 1), (2, 6), (3, 7)].map Prod.snd).all (· < 4) = false :=
  ⟨rfl, rfl⟩

/-- C9.  The migrate-task decoder arm never writes the wake-state table:
whenever it succeeds, the returned table is the input table, for every
token list, every table and every index.  (The classifier is a pure
function by construction: `classify_migrate_event` receives the table by
value and returns only a label.) -/
theorem migrate_decode_preserves_table (part : List (List Char)) (ppid pcpu : Nat)
    (table : Table) (index : Nat) (ev : Events) (table2 : Table)
    (h : get_event part ppid pcpu table "sched_migrate_task" index = .ok (ev, table2)) :
    table2 = table := by
  unfold get_event at h
  rw [if_neg (by decide), if_neg (by decide), if_neg (by decide), if_neg (by decide),
      if_pos rfl] at h
  iterate 14 (all_goals (first | split at h | simp_all))

theorem migrate_decode_preserves_table_witness :
    get_event (splitWs migrateStaleLine) 0 5 [(7, Wstate.Numa 5 9)] "sched_migrate_task" 4 =
      .ok (.SchedMigrateTask ⟨"app".toList, 7, 120⟩ 5 3 .Woken, [(7, Wstate.Numa 5 9)]) ∧
    ([(7, Wstate.Numa 5 9)] : Table) = [(7, Wstate.Numa 5 9)] :=
  ⟨by decide,
   migrate_decode_preserves_table (splitWs migrateStaleLine) 0 5 [(7, Wstate.Numa 5 9)] 4
     (.SchedMigrateTask ⟨"app".toList, 7, 120⟩ 5 3 .Woken) [(7, Wstate.Numa 5 9)] (by decide)⟩

/-- C10.  The stick-numa decoder arm parses all ten fields of the src and
dest argument groups and returns a `SchedStickNuma` event, leaving the
wake-state table exactly as it was — no entry added, removed or
overwritten (`sched_swap_numa` and `sched_move_numa` instead insert
NumaPending entries). -/
theorem stick_numa_parses_preserves_table (part : List (List Char)) (ppid pcpu : Nat)
    (table : Table) (index : Nat) (v1 v2 v3 : Nat) (v4 v5 : Int) (v6 v7 v8 : Nat)
    (v9 v10 : Int)
    (h1 : pTok32 part index "src_pid=" = .ok v1)
    (h2 : pTok32 part (index + 1) "src_tgid=" = .ok v2)
    (h3 : pTok32 part (index + 2) "src_ngid=" = .ok v3)
    (h4 : pTokI32 part (index + 3) "src_cpu=" = .ok v4)
    (h5 : pTokI32 part (index + 4) "src_nid=" = .ok v5)
    (h6 : pTok32 part (index + 5) "dst_pid=" = .ok v6)
    (h7 : pTok32 part (index + 6) "dst_tgid=" = .ok v7)
    (h8 : pTok32 part (index + 7) "dst_ngid=" = .ok v8)
    (h9 : pTokI32 part (index + 8) "dst_cpu=" = .ok v9)
    (h10 : pTokI32 part (index + 9) "dst_nid=" = .ok v10) :
    get_event part ppid pcpu table "sched_stick_numa" index =
      .ok (.SchedStickNuma ⟨v1, v2, v3, v4, v5⟩ ⟨v6, v7, v8, v9, v10⟩, table) := by
  unfold get_event
  rw [if_neg (by decide), if_neg (by decide), if_neg (by decide), if_neg (by decide),
      if_neg (by decide), if_neg (by decide), if_neg (by decide), if_neg (by decide),
      if_neg (by decide), if_neg (by decide), if_neg (by decide), if_neg (by decide),
      if_pos rfl]
  simp only [h1, h2, h3, h4, h5, h6, h7, h8, h9, h10]

theorem stick_numa_parses_preserves_table_witness :
    get_event (splitWs stickNumaLine) 0 5 [(3, Wstate.Woken)] "sched_stick_numa" 4 =
      .ok (.SchedStickNuma ⟨7, 7, 0, 5, 0⟩ ⟨8, 8, 0, 9, 0⟩, [(3, Wstate.Woken)]) :=
  stick_numa_parses_preserves_table (splitWs stickNumaLine) 0 5 [(3, Wstate.Woken)] 4
    7 7 0 5 0 8 8 0 9 0 (by decide) (by decide) (by decide) (by decide) (by decide)
    (by decide) (by decide) (by decide) (by decide) (by decide)

/-- C2 amended.  A migrate-task event whose pid has no wake-state entry
(and whose cpus lie in the declared ranges) yields NO label: the code
draws nothing and touches no counter — a silent skip, with no exception
raised; there is no explicit "Unclassified" value in the label
vocabulary. -/
theorem no_entry_yields_no_label (action : Action) (states : Table) (machine : Machine)
    (base : Base) (orig_cpu dest_cpu : Nat) (st : Wstate) (p q : Nat × Nat)
    (hev : action.event = .SchedMigrateTask base orig_cpu dest_cpu st)
    (ho : get_socket_order orig_cpu machine = some p)
    (hd : get_socket_order dest_cpu machine = some q)
    (hnone : lookupT states base.pid = none) :
    classify_migrate_event action states machine = .ok none := by
  obtain ⟨p1, p2⟩ := p
  obtain ⟨q1, q2⟩ := q
  unfold classify_migrate_event
  simp only [hev, ho, hd, hnone]

theorem no_entry_yields_no_label_witness :
    classify_migrate_event migrateActNoEntry emptyT machine4 = .ok none :=
  no_entry_yields_no_label migrateActNoEntry emptyT machine4 ⟨"app".toList, 10, 120⟩ 1 2
    .Woken (0, 0) (0, 0) rfl rfl rfl rfl

/-- C3 amended.  The `wakeup_new` decoder is fatal ("Wakeup without fork")
exactly when the pid HAS a wake-state entry that is Woken or NumaPending;
with no entry at all it succeeds with `parent_cpu = cpu`, and with a
Waking entry it succeeds with `parent_cpu` taken from the Waking target —
in both success cases setting the pid to Woken. -/
theorem wakeup_new_state_cases (part : List (List Char)) (ppid pcpu : Nat) (table : Table)
    (index : Nat) (pid : Nat) (cmd : List Char) (crest : List (List Char)) (index2 : Nat)
    (priority : Int) (cpu : Nat)
    (ht : trialSplit ':' part index = .ok (pid, cmd :: crest, index2))
    (hprio : pTokPrio part (index2 + 1) = .ok priority)
    (hcpu : pTok32 part (index2 + 2) "CPU:" = .ok cpu) :
    (lookupT table pid = none →
      get_event part ppid pcpu table "sched_wakeup_new" index =
        .ok (.SchedWakeupNew ⟨cmd, pid, priority⟩ cpu cpu, insertT pid .Woken table)) ∧
    (∀ o t, lookupT table pid = some (.Waking o t) →
      get_event part ppid pcpu table "sched_wakeup_new" index =
        .ok (.SchedWakeupNew ⟨cmd, pid, priority⟩ t cpu, insertT pid .Woken table)) ∧
    (lookupT table pid = some .Woken →
      get_event part ppid pcpu table "sched_wakeup_new" index =
        .error "Wakeup without fork") ∧
    (∀ a b, lookupT table pid = some (.Numa a b) →
      get_event part ppid pcpu table "sched_wakeup_new" index =
        .error "Wakeup without fork") := by
  refine ⟨fun hl => ?_, fun o t hl => ?_, fun hl => ?_, fun a b hl => ?_⟩ <;>
    · unfold get_event
      rw [if_neg (by decide), if_neg (by decide), if_neg (by decide), if_pos rfl]
      simp only [ht, hprio, hcpu, hl]

/-- C7 amended.  The scan aborts fatally — and yields no Action at all —
when the input is empty, when the first line has no tokens, when its
first token does not contain the substring `cpus=`, or when stripping
every `cpus=` occurrence leaves a non-numeral.  (The check is substring
containment, not a `cpus=<N>` shape check: see
`malformed_header_accepted_cex`.) -/
theorem header_validation :
    (runTrace [] = .error "Unable to read trace") ∧
    (∀ line rest, splitWs line = [] →
      runTrace (line :: rest) = .error "Invalid format: Expected 'cpus=' in the first line") ∧
    (∀ line rest p0 ps, splitWs line = p0 :: ps →
      containsSub ("cpus=".toList) p0 = false →
      runTrace (line :: rest) = .error "Invalid format: Expected 'cpus=' in the first line") ∧
    (∀ line rest p0 ps, splitWs line = p0 :: ps →
      containsSub ("cpus=".toList) p0 = true →
      parseU32 (replaceS "cpus=" p0) = none →
      runTrace (line :: rest) = .error "invalid digit") := by
  refine ⟨rfl, fun line rest hs => ?_, fun line rest p0 ps hs hc => ?_,
          fun line rest p0 ps hs hc hp => ?_⟩
  · unfold runTrace TraceParserNew
    simp only [hs]
  · unfold runTrace TraceParserNew
    simp at hc
    simp [hs, hc]
  · unfold runTrace TraceParserNew
    simp at hc hp
    simp [hs, hc, hp]

theorem header_validation_witness :
    runTrace ["foo=4".toList, "a b c".toList] =
      .error "Invalid format: Expected 'cpus=' in the first line" :=
  header_validation.2.2.1 "foo=4".toList ["a b c".toList] "foo=4".toList []
    (by decide) (by decide)

/-- Lookup in the identity table `(x, x)` over a list. -/
theorem lookup_id_map (l : List Nat) (c : Nat) (hc : c ∈ l) :
    List.lookup c (l.map fun x => (x, x)) = some c := by
  induction l with
  | nil => cases hc
  | cons a l ih =>
    rcases List.mem_cons.mp hc with h | h
    · subst h
      simp [List.lookup]
    · by_cases hca : c = a
      · subst hca
        simp [List.lookup]
      · have hb : (c == a) = false := beq_eq_false_iff_ne.mpr hca
        simp only [List.map_cons, List.lookup, hb]
        exact ih h

/-- Every cpu of the scanned list appears in the socket-order table with
the `yPos` formula applied to its first matching (socket, range). -/
theorem buildYAxis_lookup (machine : Machine) (cs : List Nat) (tbl : List (Nat × Nat))
    (h : buildYAxis machine cs = some tbl) (c : Nat) (hc : c ∈ cs) :
    ∃ s r, get_socket_order c machine = some (s, r) ∧
      List.lookup c tbl = some (yPos machine c s r) := by
  induction cs generalizing tbl with
  | nil => cases hc
  | cons c0 cs ih =>
    simp only [buildYAxis] at h
    cases hso : get_socket_order c0 machine with
    | none => rw [hso] at h; simp at h
    | some sr =>
      obtain ⟨s0, r0⟩ := sr
      rw [hso] at h
      cases hb : buildYAxis machine cs with
      | none => rw [hb] at h; simp at h
      | some rest =>
        rw [hb] at h
        simp only [Option.map_some', Option.some.injEq] at h
        subst h
        by_cases hne : c = c0
        · subst hne
          exact ⟨s0, r0, hso, by simp [List.lookup]⟩
        · rcases List.mem_cons.mp hc with hcc | hcc
          · exact absurd hcc hne
          · obtain ⟨s, r, hs, hl⟩ := ih rest hb hcc
            have hbne : (c == c0) = false := beq_eq_false_iff_ne.mpr hne
            refine ⟨s, r, hs, ?_⟩
            simp only [List.lookup, hbne]
            exact hl

/-- C6 amended.  The layout map is the identity table over `0..cpu_count`
when socket grouping is off; when it is on, every cpu below
`machine.cpus` maps to
`socket*cores_per_socket*threads_per_core + cpu % cores_per_socket + range*cores_per_socket`
with (socket, range) from the first declared range containing the cpu;
and on the default shipped topology (64 cpus, 2 sockets, 16 cores/socket,
2 threads/core) the map is a bijection of `0..64` onto `0..64` (all 64
keys present, 64 distinct position values, all below 64). -/
theorem layout_identity_formula_bijective :
    (∀ (machine : Machine) (cpu_count c : Nat), c < cpu_count →
      ∃ tbl, get_y_axis machine false cpu_count = some tbl ∧
        List.lookup c tbl = some c) ∧
    (∀ (machine : Machine) (cpu_count : Nat) (tbl : List (Nat × Nat)),
      get_y_axis machine true cpu_count = some tbl →
      ∀ c, c < machine.cpus →
        ∃ s r, get_socket_order c machine = some (s, r) ∧
          List.lookup c tbl = some (yPos machine c s r)) ∧
    ((get_y_axis defaultMachine true 64).isSome = true ∧
      defaultYKeys = List.range 64 ∧ defaultYVals.Nodup ∧
      defaultYVals.all (· < 64) = true) := by
  refine ⟨fun machine cpu_count c hc => ?_, fun machine cpu_count tbl h c hc => ?_,
          by decide⟩
  · exact ⟨_, rfl, lookup_id_map _ c (List.mem_range.mpr hc)⟩
  · simp only [get_y_axis, Bool.not_true, Bool.false_eq_true, if_false] at h
    exact buildYAxis_lookup machine _ tbl h c (List.mem_range.mpr hc)

theorem layout_identity_formula_bijective_witness :
    (∃ tbl, get_y_axis machine4 false 4 = some tbl ∧ List.lookup 2 tbl = some 2) ∧
    (∃ s r, get_socket_order 2 machine4 = some (s, r) ∧
      List.lookup 2 [(0, 0), (1, 1), (2, 2), (3, 3)] = some (yPos machine4 2 s r)) :=
  ⟨layout_identity_formula_bijective.1 machine4 4 2 (by decide),
   layout_identity_formula_bijective.2.1 machine4 4 [(0, 0), (1, 1), (2, 2), (3, 3)]
     (by decide) 2 (by decide)⟩

/-- C8 (spec-modelled).  Every successful `next()` of the Trace Stream
Driver yields a triple (Action, table snapshot, first_timestamp) in which
the third component is the driver's tracked first timestamp (the current
action's when none was recorded yet, the recorded one otherwise), the
driver's last_timestamp is updated to the yielded action's timestamp, and
the yielded snapshot is the driver's post-decode table. -/
theorem cursor_yields_triple_tracks_timestamps (st : TraceCursor)
    (out : Action × Table × Option Rat) (st2 : TraceCursor)
    (h : cursorNext st = .ok (some (out, st2))) :
    out.2.2 = st2.first_timestamp ∧
    st2.first_timestamp = some (st.first_timestamp.getD out.1.timestamp) ∧
    st2.last_timestamp = some out.1.timestamp ∧
    out.2.1 = st2.process_state := by
  obtain ⟨cc, lines, tbl, ft, lt⟩ := st
  obtain ⟨a0, t0, f0⟩ := out
  obtain ⟨cc2, l2, tbl2, ft2, lt2⟩ := st2
  unfold cursorNext at h
  simp only at h
  induction lines with
  | nil => simp [cursorNextGo] at h
  | cons l rest ih =>
    rw [cursorNextGo] at h
    split at h
    · cases hga : get_action (splitWs l) tbl with
      | error e => rw [hga] at h; simp at h
      | ok p =>
        obtain ⟨a, t⟩ := p
        rw [hga] at h
        simp only [Except.ok.injEq, Option.some.injEq, Prod.mk.injEq,
          TraceCursor.mk.injEq] at h
        obtain ⟨⟨ha, ht, hf⟩, hcc, hl2, htbl, hft, hlt⟩ := h
        subst ha
        subst ht
        subst htbl
        refine ⟨hf.symm.trans hft, ?_, hlt.symm, rfl⟩
        cases ft with
        | none => rw [← hft]; rfl
        | some x => rw [← hft]; rfl
    · exact ih h

theorem cursor_yields_triple_tracks_timestamps_witness :
    cursorNext cursorSt = .ok (some (cursorOut, cursorSt2)) ∧
    (cursorOut.2.2 = cursorSt2.first_timestamp ∧
      cursorSt2.first_timestamp = some (cursorSt.first_timestamp.getD cursorOut.1.timestamp) ∧
      cursorSt2.last_timestamp = some cursorOut.1.timestamp ∧
      cursorOut.2.1 = cursorSt2.process_state) :=
  ⟨by decide, cursor_yields_triple_tracks_timestamps cursorSt cursorOut cursorSt2 (by decide)⟩

theorem wakeup_new_state_cases_witness :
    get_event (splitWs wakeupNewLine) 0 1 [(11, Wstate.Woken)] "sched_wakeup_new" 4 =
      .error "Wakeup without fork" ∧
    get_event (splitWs wakeupNewLine) 0 1 emptyT "sched_wakeup_new" 4 =
      .ok (.SchedWakeupNew ⟨"app".toList, 11, 120⟩ 2 2, insertT 11 .Woken emptyT) :=
  ⟨(wakeup_new_state_cases (splitWs wakeupNewLine) 0 1 [(11, Wstate.Woken)] 4 11
      "app".toList [] 4 120 2 (by decide) (by decide) (by decide)).2.2.1 (by decide),
   (wakeup_new_state_cases (splitWs wakeupNewLine) 0 1 emptyT 4 11
      "app".toList [] 4 120 2 (by decide) (by decide) (by decide)).1 (by decide)⟩

end STT
